import Mathlib

/-!
# go-oauth2-gorm1: the client store and the token store

A shallow embedding of `client_store.go` and `token_store.go`.

* A Go `error` is a value of `GoError`; a nil error is `none`.
* A table is the list of its rows.  The token table also carries the counter
  of its auto-increment primary key.
* Every call on the database handle takes a `fault : Option GoError`: the
  error the database reports for that call (connection loss, failed
  statement), `none` when the statement runs.  The statements themselves
  follow the SQL that the handle emits for the call chain in the source.
* `encoding/json` is a parameter `JSON α` of the store methods.
* `time.Time` is a count of nanoseconds since the Unix epoch and
  `time.Duration` a count of nanoseconds.
* Every store method returns its Go results together with the table after
  the call.
-/

set_option maxRecDepth 100000

namespace oauth2gorm

/-! ## Go values -/

/-- Go error values seen by the stores. -/
inductive GoError where
  /-- The sentinel `gorm.ErrRecordNotFound`. -/
  | ErrRecordNotFound
  /-- Any other error reported by the database handle. -/
  | database (msg : String)
  /-- An error of `encoding/json`. -/
  | json (msg : String)
  deriving DecidableEq, Repr

/-- The method `Error()` of a Go error. -/
def GoError.Error : GoError → String
  | .ErrRecordNotFound => "record not found"
  | .database msg => msg
  | .json msg => msg

/-- Go `time.Duration`: nanoseconds. -/
abbrev Duration := Int

/-- Go `time.Time`: an instant, as nanoseconds since the Unix epoch. -/
structure Time where
  unixNano : Int
  deriving DecidableEq, Repr

/-- Go `Time.Add`. -/
def Time.Add (t : Time) (d : Duration) : Time := ⟨t.unixNano + d⟩

/-- Go `Time.Unix`: whole seconds since the epoch, rounded down. -/
def Time.Unix (t : Time) : Int := t.unixNano / 1000000000

/-- The client object `models.Client` behind `oauth2.ClientInfo`. -/
structure Client where
  ID : String
  Secret : String
  Domain : String
  UserID : String
  deriving DecidableEq, Repr

/-- The token object `models.Token` behind `oauth2.TokenInfo`. -/
structure Token where
  ClientID : String
  UserID : String
  RedirectURI : String
  Scope : String
  Code : String
  CodeCreateAt : Time
  CodeExpiresIn : Duration
  Access : String
  AccessCreateAt : Time
  AccessExpiresIn : Duration
  Refresh : String
  RefreshCreateAt : Time
  RefreshExpiresIn : Duration
  deriving DecidableEq, Repr

/-- The two functions of `encoding/json` the stores call, at one Go type. -/
structure JSON (α : Type) where
  Marshal : α → Except GoError String
  Unmarshal : String → Except GoError α

deriving instance DecidableEq for Except

/-! ## Rows and tables -/

/-- Row of the client table (`clientStoreItem`); `ID` is the primary key. -/
structure clientStoreItem where
  ID : String
  Secret : String
  Domain : String
  Data : String
  deriving DecidableEq, Repr

/-- Row of the token table (`tokenStoreItem`); `ID` is the auto-increment
primary key. -/
structure tokenStoreItem where
  ID : Int
  ExpiredAt : Int
  Code : String
  Access : String
  Refresh : String
  Data : String
  deriving DecidableEq, Repr

/-- The client table. -/
abbrev ClientTable := List clientStoreItem

/-- The token table: its rows and the next value of the auto-increment key. -/
structure TokenTable where
  rows : List tokenStoreItem
  nextID : Int
  deriving DecidableEq, Repr

/-- The three indexed key columns of the token table, named in the source by
the strings "code", "access" and "refresh". -/
inductive Column where
  | code
  | access
  | refresh
  deriving DecidableEq, Repr

/-- Column name as it appears in the SQL text. -/
def Column.name : Column → String
  | .code => "code"
  | .access => "access"
  | .refresh => "refresh"

/-- Value of a key column in a row. -/
def Column.get : Column → tokenStoreItem → String
  | .code, r => r.Code
  | .access, r => r.Access
  | .refresh, r => r.Refresh

/-- The assignment `SET <column> = ''` on one row. -/
def Column.clear : Column → tokenStoreItem → tokenStoreItem
  | .code, r => { r with Code := "" }
  | .access, r => { r with Access := "" }
  | .refresh, r => { r with Refresh := "" }

/-! ## The database handle -/

/-- Statement `SELECT * FROM clients WHERE id = ? ORDER BY id LIMIT 1`
(`Where("id = ?", id).First(&item)`). -/
def ClientTable.First (fault : Option GoError) (id : String) (t : ClientTable) :
    Except GoError clientStoreItem :=
  match fault with
  | some e => .error e
  | none =>
    match t.find? (fun r => r.ID == id) with
    | some r => .ok r
    | none => .error .ErrRecordNotFound

/-- Statement `INSERT INTO clients ...` (`Create(item)`) for an item with a
non-blank primary key: refused when the key is already present.  (For a blank
key the handle leaves the column out of the statement and the stored key
depends on the engine; that input is outside this model, and every theorem on
`ClientStore.Create` assumes a non-blank ID.) -/
def ClientTable.Create (fault : Option GoError) (item : clientStoreItem) (t : ClientTable) :
    Option GoError × ClientTable :=
  match fault with
  | some e => (some e, t)
  | none =>
    if t.any (fun r => r.ID == item.ID) then
      (some (.database "duplicate primary key"), t)
    else
      (none, t ++ [item])

/-- The row of least primary key in a list (the earliest one on a tie). -/
def leastID : List tokenStoreItem → Option tokenStoreItem
  | [] => none
  | r :: rs =>
    match leastID rs with
    | none => some r
    | some m => if m.ID < r.ID then some m else some r

/-- Statement `SELECT * FROM tokens WHERE <column> = ? ORDER BY id LIMIT 1`
(`Where(query, value).First(&item)`). -/
def TokenTable.First (fault : Option GoError) (col : Column) (value : String) (t : TokenTable) :
    Except GoError tokenStoreItem :=
  match fault with
  | some e => .error e
  | none =>
    match leastID (t.rows.filter (fun r => col.get r == value)) with
    | some r => .ok r
    | none => .error .ErrRecordNotFound

/-- Statement `INSERT INTO tokens ...` (`Create(item)`) for an item whose
primary key is blank, as every item built by the store is: the key is taken
from the auto-increment counter. -/
def TokenTable.Create (fault : Option GoError) (item : tokenStoreItem) (t : TokenTable) :
    Option GoError × TokenTable :=
  match fault with
  | some e => (some e, t)
  | none => (none, { rows := t.rows ++ [{ item with ID := t.nextID }], nextID := t.nextID + 1 })

/-- Statement `UPDATE tokens SET <column> = '' WHERE <column> = ?`
(`Where(query, value).Update(key, "")`). -/
def TokenTable.Update (fault : Option GoError) (col : Column) (value : String) (t : TokenTable) :
    Option GoError × TokenTable :=
  match fault with
  | some e => (some e, t)
  | none =>
    (none, { t with rows := t.rows.map (fun r => if col.get r == value then col.clear r else r) })

/-- The condition of the sweep,
`(expired_at <= ?) OR (code = '' AND access = '' AND refresh = '')`
(`Where(query1, now).Or(query2)`). -/
def sweepCond (now : Int) (r : tokenStoreItem) : Bool :=
  decide (r.ExpiredAt ≤ now) || (r.Code == "" && r.Access == "" && r.Refresh == "")

/-- Statement `SELECT count(*) FROM tokens WHERE <sweep condition>`
(`Count(&count)`): the count, left at 0 when the statement fails, and the
error. -/
def TokenTable.Count (fault : Option GoError) (now : Int) (t : TokenTable) :
    Int × Option GoError :=
  match fault with
  | some e => (0, some e)
  | none => (((t.rows.filter (sweepCond now)).length : Int), none)

/-- Statement `DELETE FROM tokens WHERE <sweep condition>`
(`Unscoped()...Delete(&tokenStoreItem{})`). -/
def TokenTable.Delete (fault : Option GoError) (now : Int) (t : TokenTable) :
    Option GoError × TokenTable :=
  match fault with
  | some e => (some e, t)
  | none => (none, { t with rows := t.rows.filter (fun r => !sweepCond now r) })

/-! ## ClientStore -/

/-- Method `ClientStore.toClientInfo`. -/
def ClientStore.toClientInfo (js : JSON Client) (data : String) :
    Option Client × Option GoError :=
  match js.Unmarshal data with
  | .error err => (none, some err)
  | .ok ci => (some ci, none)

/-- Method `ClientStore.GetByID`. -/
def ClientStore.GetByID (js : JSON Client) (fault : Option GoError) (id : String)
    (db : ClientTable) : (Option Client × Option GoError) × ClientTable :=
  if id = "" then ((none, none), db)
  else
    match db.First fault id with
    | .error err =>
      if err = .ErrRecordNotFound then ((none, none), db)
      else ((none, some err), db)
    | .ok item => (ClientStore.toClientInfo js item.Data, db)

/-- Method `ClientStore.Create`. -/
def ClientStore.Create (js : JSON Client) (fault : Option GoError) (info : Client)
    (db : ClientTable) : Option GoError × ClientTable :=
  match js.Marshal info with
  | .error err => (some err, db)
  | .ok data =>
    let item : clientStoreItem :=
      { ID := info.ID, Secret := info.Secret, Domain := info.Domain, Data := data }
    db.Create fault item

/-! ## TokenStore -/

/-- Method `TokenStore.clean`, at the instant `now` read from the clock: the
table after the sweep and the lines written to the log. -/
def TokenStore.clean (now : Int) (countFault deleteFault : Option GoError) (db : TokenTable) :
    TokenTable × List String :=
  match db.Count countFault now with
  | (count, err) =>
    if err ≠ none ∨ count = 0 then
      match err with
      | some e => (db, [e.Error])
      | none => (db, [])
    else
      match db.Delete deleteFault now with
      | (some e, db') => (db', [e.Error])
      | (none, db') => (db', [])

/-- The item that `TokenStore.Create` builds from the token and its
serialised form before handing it to the database. -/
def TokenStore.createItem (info : Token) (data : String) : tokenStoreItem :=
  let item : tokenStoreItem :=
    { ID := 0, ExpiredAt := 0, Code := "", Access := "", Refresh := "", Data := data }
  if info.Code ≠ "" then
    { item with Code := info.Code,
                ExpiredAt := (info.CodeCreateAt.Add info.CodeExpiresIn).Unix }
  else
    let item := { item with Access := info.Access,
                            ExpiredAt := (info.AccessCreateAt.Add info.AccessExpiresIn).Unix }
    if info.Refresh ≠ "" then
      { item with Refresh := info.Refresh,
                  ExpiredAt := (info.RefreshCreateAt.Add info.RefreshExpiresIn).Unix }
    else item

/-- Method `TokenStore.Create`. -/
def TokenStore.Create (js : JSON Token) (fault : Option GoError) (info : Token)
    (db : TokenTable) : Option GoError × TokenTable :=
  match js.Marshal info with
  | .error err => (some err, db)
  | .ok data => db.Create fault (TokenStore.createItem info data)

/-- Method `TokenStore.removeBy`. -/
def TokenStore.removeBy (fault : Option GoError) (key : Column) (value : String)
    (db : TokenTable) : Option GoError × TokenTable :=
  match db.Update fault key value with
  | (err, db') =>
    if err ≠ none ∧ err = some .ErrRecordNotFound then (none, db')
    else (err, db')

/-- Method `TokenStore.RemoveByCode`. -/
def TokenStore.RemoveByCode (fault : Option GoError) (code : String) (db : TokenTable) :
    Option GoError × TokenTable :=
  TokenStore.removeBy fault .code code db

/-- Method `TokenStore.RemoveByAccess`. -/
def TokenStore.RemoveByAccess (fault : Option GoError) (access : String) (db : TokenTable) :
    Option GoError × TokenTable :=
  TokenStore.removeBy fault .access access db

/-- Method `TokenStore.RemoveByRefresh`. -/
def TokenStore.RemoveByRefresh (fault : Option GoError) (refresh : String) (db : TokenTable) :
    Option GoError × TokenTable :=
  TokenStore.removeBy fault .refresh refresh db

/-- Method `TokenStore.toTokenInfo`. -/
def TokenStore.toTokenInfo (js : JSON Token) (data : String) :
    Option Token × Option GoError :=
  match js.Unmarshal data with
  | .error err => (none, some err)
  | .ok ti => (some ti, none)

/-- Method `TokenStore.getBy`. -/
def TokenStore.getBy (js : JSON Token) (fault : Option GoError) (key : Column) (value : String)
    (db : TokenTable) : (Option Token × Option GoError) × TokenTable :=
  if value = "" then ((none, none), db)
  else
    match db.First fault key value with
    | .error err =>
      if err = .ErrRecordNotFound then ((none, none), db)
      else ((none, some err), db)
    | .ok item => (TokenStore.toTokenInfo js item.Data, db)

/-- Method `TokenStore.GetByCode`. -/
def TokenStore.GetByCode (js : JSON Token) (fault : Option GoError) (code : String)
    (db : TokenTable) : (Option Token × Option GoError) × TokenTable :=
  TokenStore.getBy js fault .code code db

/-- Method `TokenStore.GetByAccess`. -/
def TokenStore.GetByAccess (js : JSON Token) (fault : Option GoError) (access : String)
    (db : TokenTable) : (Option Token × Option GoError) × TokenTable :=
  TokenStore.getBy js fault .access access db

/-- Method `TokenStore.GetByRefresh`. -/
def TokenStore.GetByRefresh (js : JSON Token) (fault : Option GoError) (refresh : String)
    (db : TokenTable) : (Option Token × Option GoError) × TokenTable :=
  TokenStore.getBy js fault .refresh refresh db

/-- Number of non-empty key columns of a row. -/
def keyCount (r : tokenStoreItem) : Nat :=
  (if r.Code ≠ "" then 1 else 0) + (if r.Access ≠ "" then 1 else 0)
    + (if r.Refresh ≠ "" then 1 else 0)

/-- The token table right after its creation. -/
def TokenTable.empty : TokenTable := { rows := [], nextID := 1 }

/-- The error contract of a lookup called with a non-empty argument, for the
outcome `q` of its query, the deserialiser `decode` of a row and its Go results
`res`: the error is non-nil exactly when the query failed with an error other
than record-not-found or the row found fails to deserialise; that error is the
one returned; an error comes with a nil object; and record-not-found is the
only query error that gives a nil error. -/
def LookupErrorContract {ρ β : Type} (q : Except GoError ρ) (decode : ρ → Except GoError β)
    (res : Option β × Option GoError) : Prop :=
  (res.2 ≠ none ↔
      (∃ e, q = .error e ∧ e ≠ .ErrRecordNotFound)
        ∨ (∃ row e, q = .ok row ∧ decode row = .error e))
  ∧ (∀ e, q = .error e → e ≠ .ErrRecordNotFound → res = (none, some e))
  ∧ (∀ row e, q = .ok row → decode row = .error e → res = (none, some e))
  ∧ (res.2 ≠ none → res.1 = none)
  ∧ (∀ e, q = .error e → (res.2 = none ↔ e = .ErrRecordNotFound))

/-! ## Example values -/

/-- A token of the code flow. -/
def exCodeToken : Token :=
  { ClientID := "c1", UserID := "u1", RedirectURI := "", Scope := "",
    Code := "k1", CodeCreateAt := ⟨0⟩, CodeExpiresIn := 600000000000,
    Access := "", AccessCreateAt := ⟨0⟩, AccessExpiresIn := 0,
    Refresh := "", RefreshCreateAt := ⟨0⟩, RefreshExpiresIn := 0 }

/-- A token with an access token only. -/
def exAccessToken : Token :=
  { ClientID := "c1", UserID := "u1", RedirectURI := "", Scope := "",
    Code := "", CodeCreateAt := ⟨0⟩, CodeExpiresIn := 0,
    Access := "a1", AccessCreateAt := ⟨0⟩, AccessExpiresIn := 7200000000000,
    Refresh := "", RefreshCreateAt := ⟨0⟩, RefreshExpiresIn := 0 }

/-- Another user's token carrying the same access value as `exAccessToken`. -/
def exAccessToken0 : Token := { exAccessToken with UserID := "u0" }

/-- A token with an access and a refresh token. -/
def exBothToken : Token :=
  { ClientID := "c1", UserID := "u1", RedirectURI := "", Scope := "",
    Code := "", CodeCreateAt := ⟨0⟩, CodeExpiresIn := 0,
    Access := "a2", AccessCreateAt := ⟨0⟩, AccessExpiresIn := 7200000000000,
    Refresh := "r2", RefreshCreateAt := ⟨0⟩, RefreshExpiresIn := 86400000000000 }

/-- Another user's token carrying the same refresh value as `exBothToken`. -/
def exBothToken0 : Token := { exBothToken with UserID := "u0", Access := "a0" }

/-- The text `encoding/json` writes for `exCodeToken` (its instants are the Unix
epoch in UTC). -/
def exCodeText : String :=
  "\x7b\"ClientID\":\"c1\",\"UserID\":\"u1\",\"RedirectURI\":\"\",\"Scope\":\"\",\"Code\":\"k1\",\"CodeCreateAt\":\"1970-01-01T00:00:00Z\",\"CodeExpiresIn\":600000000000,\"Access\":\"\",\"AccessCreateAt\":\"1970-01-01T00:00:00Z\",\"AccessExpiresIn\":0,\"Refresh\":\"\",\"RefreshCreateAt\":\"1970-01-01T00:00:00Z\",\"RefreshExpiresIn\":0\x7d"

/-- The text `encoding/json` writes for `exAccessToken` (its instants are the Unix
epoch in UTC). -/
def exAccessText : String :=
  "\x7b\"ClientID\":\"c1\",\"UserID\":\"u1\",\"RedirectURI\":\"\",\"Scope\":\"\",\"Code\":\"\",\"CodeCreateAt\":\"1970-01-01T00:00:00Z\",\"CodeExpiresIn\":0,\"Access\":\"a1\",\"AccessCreateAt\":\"1970-01-01T00:00:00Z\",\"AccessExpiresIn\":7200000000000,\"Refresh\":\"\",\"RefreshCreateAt\":\"1970-01-01T00:00:00Z\",\"RefreshExpiresIn\":0\x7d"

/-- The text `encoding/json` writes for `exAccessToken0` (its instants are the Unix
epoch in UTC). -/
def exAccessText0 : String :=
  "\x7b\"ClientID\":\"c1\",\"UserID\":\"u0\",\"RedirectURI\":\"\",\"Scope\":\"\",\"Code\":\"\",\"CodeCreateAt\":\"1970-01-01T00:00:00Z\",\"CodeExpiresIn\":0,\"Access\":\"a1\",\"AccessCreateAt\":\"1970-01-01T00:00:00Z\",\"AccessExpiresIn\":7200000000000,\"Refresh\":\"\",\"RefreshCreateAt\":\"1970-01-01T00:00:00Z\",\"RefreshExpiresIn\":0\x7d"

/-- The text `encoding/json` writes for `exBothToken` (its instants are the Unix
epoch in UTC). -/
def exBothText : String :=
  "\x7b\"ClientID\":\"c1\",\"UserID\":\"u1\",\"RedirectURI\":\"\",\"Scope\":\"\",\"Code\":\"\",\"CodeCreateAt\":\"1970-01-01T00:00:00Z\",\"CodeExpiresIn\":0,\"Access\":\"a2\",\"AccessCreateAt\":\"1970-01-01T00:00:00Z\",\"AccessExpiresIn\":7200000000000,\"Refresh\":\"r2\",\"RefreshCreateAt\":\"1970-01-01T00:00:00Z\",\"RefreshExpiresIn\":86400000000000\x7d"

/-- The text `encoding/json` writes for `exBothToken0` (its instants are the Unix
epoch in UTC). -/
def exBothText0 : String :=
  "\x7b\"ClientID\":\"c1\",\"UserID\":\"u0\",\"RedirectURI\":\"\",\"Scope\":\"\",\"Code\":\"\",\"CodeCreateAt\":\"1970-01-01T00:00:00Z\",\"CodeExpiresIn\":0,\"Access\":\"a0\",\"AccessCreateAt\":\"1970-01-01T00:00:00Z\",\"AccessExpiresIn\":7200000000000,\"Refresh\":\"r2\",\"RefreshCreateAt\":\"1970-01-01T00:00:00Z\",\"RefreshExpiresIn\":86400000000000\x7d"

/-- The example tokens with their texts. -/
def exTokenTexts : List (Token × String) :=
  [(exCodeToken, exCodeText),
   (exAccessToken, exAccessText),
   (exAccessToken0, exAccessText0),
   (exBothToken, exBothText),
   (exBothToken0, exBothText0)]

/-- The fragment of `encoding/json` on the example tokens. -/
def exTokenJSON : JSON Token where
  Marshal t :=
    match exTokenTexts.find? (fun p => p.1 == t) with
    | some p => .ok p.2
    | none => .error (.json "unsupported value")
  Unmarshal s :=
    match exTokenTexts.find? (fun p => p.2 == s) with
    | some p => .ok p.1
    | none => .error (.json "invalid character")

/-- The token table after `exAccessToken0` was created in the empty table. -/
def exAccessTable0 : TokenTable :=
  { rows := [{ ID := 1, ExpiredAt := 7200, Code := "", Access := "a1", Refresh := "",
               Data := exAccessText0 }],
    nextID := 2 }

/-- The token table after `exBothToken0` was created in the empty table. -/
def exBothTable0 : TokenTable :=
  { rows := [{ ID := 1, ExpiredAt := 86400, Code := "", Access := "a0", Refresh := "r2",
               Data := exBothText0 }],
    nextID := 2 }

/-- A client. -/
def exClient : Client :=
  { ID := "c1", Secret := "s3cret", Domain := "http://localhost", UserID := "u1" }

/-- The text `encoding/json` writes for `exClient`. -/
def exClientText : String :=
  "\x7b\"ID\":\"c1\",\"Secret\":\"s3cret\",\"Domain\":\"http://localhost\",\"UserID\":\"u1\"\x7d"

/-- The fragment of `encoding/json` on the example client. -/
def exClientJSON : JSON Client where
  Marshal c :=
    if c = exClient then .ok exClientText else .error (.json "unsupported value")
  Unmarshal s :=
    if s = exClientText then .ok exClient else .error (.json "invalid character")

/-! ## The sweep -/

theorem sweepCond_iff (now : Int) (r : tokenStoreItem) :
    sweepCond now r = true ↔
      r.ExpiredAt ≤ now ∨ (r.Code = "" ∧ r.Access = "" ∧ r.Refresh = "") := by
  simp [sweepCond, and_assoc]

theorem sweepCond_false_iff (now : Int) (r : tokenStoreItem) :
    sweepCond now r = false ↔
      now < r.ExpiredAt ∧ (r.Code ≠ "" ∨ r.Access ≠ "" ∨ r.Refresh ≠ "") := by
  rw [← Bool.not_eq_true, sweepCond_iff]
  constructor
  · intro h
    refine ⟨by omega, ?_⟩
    by_contra hk
    exact h (Or.inr ⟨by tauto, by tauto, by tauto⟩)
  · rintro ⟨h1, h2⟩ (h | ⟨hc, ha, hr⟩)
    · omega
    · rcases h2 with h2 | h2 | h2 <;> contradiction

theorem clean_rows (now : Int) (db : TokenTable) :
    (TokenStore.clean now none none db).1.rows
      = db.rows.filter (fun r => !sweepCond now r) := by
  unfold TokenStore.clean TokenTable.Count TokenTable.Delete
  by_cases h : ((db.rows.filter (sweepCond now)).length : Int) = 0
  · have h0 : db.rows.filter (sweepCond now) = [] := by
      apply List.eq_nil_of_length_eq_zero
      exact_mod_cast h
    have hall : ∀ r ∈ db.rows, (!sweepCond now r) = true := by
      intro r hr
      have := (List.filter_eq_nil_iff.mp h0) r hr
      simpa using this
    simp [h, List.filter_eq_self.mpr hall]
  · simp [h]

/-- C1: one run of the sweep whose two database calls succeed removes exactly
the rows with expiredAt <= now or with code, access and refresh all empty: the
table afterwards is the old table restricted to the rows with expiredAt > now
and a non-empty key column, so every row of the first kind is absent and every
row of the second kind is still present, unchanged. -/
theorem clean_removes_exactly_expired_or_empty (now : Int) (db : TokenTable) :
    (TokenStore.clean now none none db).1.rows
        = db.rows.filter (fun r =>
            decide (now < r.ExpiredAt ∧ (r.Code ≠ "" ∨ r.Access ≠ "" ∨ r.Refresh ≠ "")))
    ∧ (∀ r ∈ db.rows,
        (r.ExpiredAt ≤ now ∨ (r.Code = "" ∧ r.Access = "" ∧ r.Refresh = "")) →
          r ∉ (TokenStore.clean now none none db).1.rows)
    ∧ (∀ r ∈ db.rows,
        now < r.ExpiredAt → (r.Code ≠ "" ∨ r.Access ≠ "" ∨ r.Refresh ≠ "") →
          r ∈ (TokenStore.clean now none none db).1.rows)
    ∧ (TokenStore.clean now none none db).1.nextID = db.nextID
    ∧ (TokenStore.clean now none none db).2 = [] := by
  have hrows := clean_rows now db
  refine ⟨?_, ?_, ?_, ?_, ?_⟩
  · rw [hrows]
    apply List.filter_congr
    intro r _
    by_cases hs : sweepCond now r = true
    · have := (sweepCond_iff now r).mp hs
      have hneg : ¬ (now < r.ExpiredAt ∧ (r.Code ≠ "" ∨ r.Access ≠ "" ∨ r.Refresh ≠ "")) := by
        rw [← sweepCond_false_iff]; simp [hs]
      simp [hs, hneg]
    · have hf : sweepCond now r = false := by simpa using hs
      have := (sweepCond_false_iff now r).mp hf
      simp [hf, this]
  · intro r _ hc
    rw [hrows, List.mem_filter]
    rintro ⟨_, hn⟩
    have := (sweepCond_iff now r).mpr hc
    simp [this] at hn
  · intro r hr h1 h2
    rw [hrows, List.mem_filter]
    exact ⟨hr, by simp [(sweepCond_false_iff now r).mpr ⟨h1, h2⟩]⟩
  · unfold TokenStore.clean TokenTable.Count TokenTable.Delete
    by_cases h : ((db.rows.filter (sweepCond now)).length : Int) = 0 <;> simp [h]
  · unfold TokenStore.clean TokenTable.Count TokenTable.Delete
    by_cases h : ((db.rows.filter (sweepCond now)).length : Int) = 0 <;> simp [h]

/-! ## Create on the token store -/

theorem Create_eq (js : JSON Token) (info : Token) (data : String) (db : TokenTable)
    (hm : js.Marshal info = .ok data) :
    TokenStore.Create js none info db
      = (none, { rows := db.rows ++ [{ TokenStore.createItem info data with ID := db.nextID }],
                 nextID := db.nextID + 1 }) := by
  simp [TokenStore.Create, hm, TokenTable.Create]

/-- C2: the row inserted by Create(T): with a non-empty code it carries the
code alone and expires at the unix second of codeCreateAt + codeExpiresIn;
otherwise its code is empty, its access is T's access, and it carries T's
refresh with the refresh expiry when T's refresh is non-empty, and an empty
refresh with the access expiry when it is empty. -/
theorem Create_row_key_and_expiry (js : JSON Token) (info : Token) (data : String)
    (db : TokenTable) (hm : js.Marshal info = .ok data) :
    ∃ row : tokenStoreItem,
      TokenStore.Create js none info db
          = (none, { rows := db.rows ++ [row], nextID := db.nextID + 1 })
      ∧ row.Data = data
      ∧ (info.Code ≠ "" →
          row.Code = info.Code ∧ row.Access = "" ∧ row.Refresh = ""
            ∧ row.ExpiredAt = (info.CodeCreateAt.Add info.CodeExpiresIn).Unix)
      ∧ (info.Code = "" →
          row.Code = "" ∧ row.Access = info.Access
            ∧ (info.Refresh = "" →
                row.Refresh = ""
                  ∧ row.ExpiredAt = (info.AccessCreateAt.Add info.AccessExpiresIn).Unix)
            ∧ (info.Refresh ≠ "" →
                row.Refresh = info.Refresh
                  ∧ row.ExpiredAt = (info.RefreshCreateAt.Add info.RefreshExpiresIn).Unix)) := by
  refine ⟨_, Create_eq js info data db hm, ?_, ?_, ?_⟩
  · unfold TokenStore.createItem
    by_cases hc : info.Code = "" <;> by_cases hr : info.Refresh = "" <;> simp [hc, hr]
  · intro hc
    simp [TokenStore.createItem, hc]
  · intro hc
    unfold TokenStore.createItem
    by_cases hr : info.Refresh = "" <;> simp [hc, hr]

/-- Witness of C2: the code-flow example token, created in the empty table. -/
theorem Create_row_key_and_expiry_witness :
    exTokenJSON.Marshal exCodeToken = .ok exCodeText
    ∧ ∃ row : tokenStoreItem,
        TokenStore.Create exTokenJSON none exCodeToken TokenTable.empty
          = (none, { rows := [row], nextID := 2 })
        ∧ row.Data = exCodeText
        ∧ row.Code = "k1" ∧ row.Access = "" ∧ row.Refresh = "" ∧ row.ExpiredAt = 600 := by
  refine ⟨rfl, ?_⟩
  obtain ⟨row, h1, h2, h3, _⟩ :=
    Create_row_key_and_expiry exTokenJSON exCodeToken exCodeText TokenTable.empty rfl
  obtain ⟨h4, h5, h6, h7⟩ := h3 (by decide)
  exact ⟨row, h1, h2, h4, h5, h6, by rw [h7]; decide⟩

/-- C3 fails: the row inserted for a token with an access and a refresh token
has two non-empty key columns, not one. -/
theorem Create_one_key_column_counterexample :
    TokenStore.Create exTokenJSON none exBothToken TokenTable.empty
        = (none, { rows := [{ ID := 1, ExpiredAt := 86400, Code := "", Access := "a2",
                              Refresh := "r2", Data := exBothText }],
                   nextID := 2 })
    ∧ keyCount { ID := 1, ExpiredAt := 86400, Code := "", Access := "a2",
                 Refresh := "r2", Data := exBothText } = 2 := by
  constructor
  · rw [Create_eq exTokenJSON exBothToken exBothText TokenTable.empty rfl]
    decide
  · decide

/-- C3 as amended: the row inserted by Create(T) has its code column alone
non-empty when T's code is non-empty; otherwise its code column is empty and
its access and refresh columns are T's access and refresh, so the number of
its non-empty key columns is the number of non-empty values among T's access
and refresh. -/
theorem Create_row_key_count (js : JSON Token) (info : Token) (data : String)
    (db : TokenTable) (hm : js.Marshal info = .ok data) :
    ∃ row : tokenStoreItem,
      TokenStore.Create js none info db
          = (none, { rows := db.rows ++ [row], nextID := db.nextID + 1 })
      ∧ (info.Code ≠ "" → row.Code ≠ "" ∧ row.Access = "" ∧ row.Refresh = "")
      ∧ (info.Code = "" →
          row.Code = "" ∧ row.Access = info.Access ∧ row.Refresh = info.Refresh)
      ∧ keyCount row
          = if info.Code ≠ "" then 1
            else (if info.Access ≠ "" then 1 else 0) + (if info.Refresh ≠ "" then 1 else 0) := by
  refine ⟨_, Create_eq js info data db hm, ?_, ?_, ?_⟩
  · intro hc
    simp [TokenStore.createItem, hc]
  · intro hc
    unfold TokenStore.createItem
    by_cases hr : info.Refresh = "" <;> simp [hc, hr]
  · unfold TokenStore.createItem keyCount
    by_cases hc : info.Code = "" <;> by_cases hr : info.Refresh = "" <;> simp [hc, hr]

/-- Witness of the amended C3: the access-only example token gives a row with
one non-empty key column. -/
theorem Create_row_key_count_witness :
    exTokenJSON.Marshal exAccessToken = .ok exAccessText
    ∧ ∃ row : tokenStoreItem,
        TokenStore.Create exTokenJSON none exAccessToken TokenTable.empty
          = (none, { rows := [row], nextID := 2 })
        ∧ row.Code = "" ∧ row.Access = "a1" ∧ row.Refresh = "" ∧ keyCount row = 1 := by
  refine ⟨rfl, ?_⟩
  obtain ⟨row, h1, _, h3, h4⟩ :=
    Create_row_key_count exTokenJSON exAccessToken exAccessText TokenTable.empty rfl
  obtain ⟨h5, h6, h7⟩ := h3 (by decide)
  exact ⟨row, h1, h5, h6, h7, by rw [h4]; decide⟩

/-! ## The client store -/

theorem ClientStore_Create_ok (js : JSON Client) (fault : Option GoError) (C : Client)
    (db db' : ClientTable) (hc : ClientStore.Create js fault C db = (none, db')) :
    ∃ data, js.Marshal C = .ok data ∧ fault = none
      ∧ (∀ r ∈ db, r.ID ≠ C.ID)
      ∧ db' = db ++ [{ ID := C.ID, Secret := C.Secret, Domain := C.Domain, Data := data }] := by
  unfold ClientStore.Create at hc
  cases hm : js.Marshal C with
  | error e => simp [hm] at hc
  | ok data =>
    simp only [hm] at hc
    unfold ClientTable.Create at hc
    cases fault with
    | some e => simp at hc
    | none =>
      by_cases hany : (List.any db fun r => r.ID == C.ID) = true
      · simp [hany] at hc
      · simp only [hany] at hc
        refine ⟨data, rfl, rfl, ?_, ?_⟩
        · intro r hr hid
          apply hany
          rw [List.any_eq_true]
          exact ⟨r, hr, by simp [hid]⟩
        · simpa using hc.symm

theorem ClientTable_First_append_new (db : ClientTable) (item : clientStoreItem)
    (hfresh : ∀ r ∈ db, r.ID ≠ item.ID) :
    ClientTable.First none item.ID (db ++ [item]) = .ok item := by
  unfold ClientTable.First
  have h1 : List.find? (fun r => r.ID == item.ID) db = none := by
    rw [List.find?_eq_none]
    intro r hr
    simpa using hfresh r hr
  simp [List.find?_append, h1]

/-- C4: after ClientStore.Create(C) succeeds for a client C with a non-empty ID
whose serialised form deserialises to C, GetByID(C.ID) returns C and no error,
whatever the table held before. -/
theorem GetByID_after_Create (js : JSON Client) (fault : Option GoError) (C : Client)
    (db db' : ClientTable)
    (hid : C.ID ≠ "")
    (hrt : ∀ data, js.Marshal C = .ok data → js.Unmarshal data = .ok C)
    (hc : ClientStore.Create js fault C db = (none, db')) :
    ClientStore.GetByID js none C.ID db' = ((some C, none), db') := by
  obtain ⟨data, hm, _, hfresh, hdb⟩ := ClientStore_Create_ok js fault C db db' hc
  subst hdb
  have hf := ClientTable_First_append_new db
    { ID := C.ID, Secret := C.Secret, Domain := C.Domain, Data := data } hfresh
  simp only at hf
  simp [ClientStore.GetByID, hid, hf, ClientStore.toClientInfo, hrt data hm]

/-- Witness of C4: the example client, created in a table that already holds
another client. -/
theorem GetByID_after_Create_witness :
    ClientStore.Create exClientJSON none exClient
        [{ ID := "c0", Secret := "x", Domain := "", Data := "" }]
      = (none, [{ ID := "c0", Secret := "x", Domain := "", Data := "" },
                { ID := "c1", Secret := "s3cret", Domain := "http://localhost",
                  Data := exClientText }])
    ∧ ClientStore.GetByID exClientJSON none "c1"
        [{ ID := "c0", Secret := "x", Domain := "", Data := "" },
         { ID := "c1", Secret := "s3cret", Domain := "http://localhost",
           Data := exClientText }]
      = ((some exClient, none),
         [{ ID := "c0", Secret := "x", Domain := "", Data := "" },
          { ID := "c1", Secret := "s3cret", Domain := "http://localhost",
            Data := exClientText }]) :=
  ⟨by decide,
   GetByID_after_Create exClientJSON none exClient
     [{ ID := "c0", Secret := "x", Domain := "", Data := "" }] _
     (by decide) (by intro data h; cases h; decide) (by decide)⟩

/-! ## Lookups on the token store -/

theorem leastID_singleton (r : tokenStoreItem) : leastID [r] = some r := by
  simp [leastID]

theorem TokenTable_First_append_new (col : Column) (rows : List tokenStoreItem)
    (row : tokenStoreItem) (n : Int) (hfresh : ∀ r ∈ rows, col.get r ≠ col.get row) :
    TokenTable.First none col (col.get row) { rows := rows ++ [row], nextID := n }
      = .ok row := by
  unfold TokenTable.First
  have h1 : rows.filter (fun r => col.get r == col.get row) = [] := by
    rw [List.filter_eq_nil_iff]
    intro r hr
    simpa using hfresh r hr
  simp [List.filter_append, h1, leastID_singleton]

theorem TokenTable_First_absent (col : Column) (v : String) (db : TokenTable)
    (habs : ∀ r ∈ db.rows, col.get r ≠ v) :
    TokenTable.First none col v db = .error .ErrRecordNotFound := by
  unfold TokenTable.First
  have h1 : db.rows.filter (fun r => col.get r == v) = [] := by
    rw [List.filter_eq_nil_iff]
    intro r hr
    simpa using habs r hr
  simp [h1, leastID]

theorem getBy_empty (js : JSON Token) (fault : Option GoError) (col : Column)
    (db : TokenTable) : TokenStore.getBy js fault col "" db = ((none, none), db) := by
  simp [TokenStore.getBy]

theorem TokenStore_Create_ok (js : JSON Token) (fault : Option GoError) (T : Token)
    (db db' : TokenTable) (hc : TokenStore.Create js fault T db = (none, db')) :
    ∃ data, js.Marshal T = .ok data
      ∧ db' = { rows := db.rows ++ [{ TokenStore.createItem T data with ID := db.nextID }],
                nextID := db.nextID + 1 } := by
  unfold TokenStore.Create at hc
  cases hm : js.Marshal T with
  | error e => simp [hm] at hc
  | ok data =>
    simp only [hm] at hc
    unfold TokenTable.Create at hc
    cases fault with
    | some e => simp at hc
    | none =>
      refine ⟨data, rfl, ?_⟩
      simpa using hc.symm

/-- C5 fails: when an earlier row holds the same access value, GetByAccess
after Create returns the earlier token, not the one just created. -/
theorem GetByAccess_after_Create_counterexample :
    TokenStore.Create exTokenJSON none exAccessToken0 TokenTable.empty
        = (none, exAccessTable0)
    ∧ TokenStore.Create exTokenJSON none exAccessToken exAccessTable0
        = (none, { rows := exAccessTable0.rows ++
                     [{ ID := 2, ExpiredAt := 7200, Code := "", Access := "a1", Refresh := "",
                        Data := exAccessText }],
                   nextID := 3 })
    ∧ (TokenStore.GetByAccess exTokenJSON none exAccessToken.Access
        { rows := exAccessTable0.rows ++
            [{ ID := 2, ExpiredAt := 7200, Code := "", Access := "a1", Refresh := "",
               Data := exAccessText }],
          nextID := 3 }).1 = (some exAccessToken0, none)
    ∧ exAccessToken0 ≠ exAccessToken := by
  refine ⟨?_, ?_, ?_, ?_⟩
  · rw [Create_eq exTokenJSON exAccessToken0 exAccessText0 TokenTable.empty rfl]
    decide
  · rw [Create_eq exTokenJSON exAccessToken exAccessText exAccessTable0 rfl]
    decide
  · decide
  · decide

/-- C5 as amended: for a token T with only an access token, created in a table
where no row already holds T's access value, GetByAccess(T.Access) returns T
and no error, and GetByCode and GetByRefresh on the new row's (empty) code and
refresh return nil and no error. -/
theorem GetByAccess_after_Create (js : JSON Token) (fault gfault : Option GoError)
    (T : Token) (db db' : TokenTable)
    (hcode : T.Code = "") (hrefresh : T.Refresh = "") (haccess : T.Access ≠ "")
    (hrt : ∀ data, js.Marshal T = .ok data → js.Unmarshal data = .ok T)
    (hfresh : ∀ r ∈ db.rows, r.Access ≠ T.Access)
    (hc : TokenStore.Create js fault T db = (none, db')) :
    TokenStore.GetByAccess js none T.Access db' = ((some T, none), db')
    ∧ ∃ row : tokenStoreItem,
        db'.rows = db.rows ++ [row] ∧ row.Access = T.Access
        ∧ row.Code = "" ∧ row.Refresh = ""
        ∧ TokenStore.GetByCode js gfault row.Code db' = ((none, none), db')
        ∧ TokenStore.GetByRefresh js gfault row.Refresh db' = ((none, none), db') := by
  obtain ⟨data, hm, hdb⟩ := TokenStore_Create_ok js fault T db db' hc
  have hitem : TokenStore.createItem T data
      = { ID := 0, ExpiredAt := (T.AccessCreateAt.Add T.AccessExpiresIn).Unix, Code := "",
          Access := T.Access, Refresh := "", Data := data } := by
    simp [TokenStore.createItem, hcode, hrefresh]
  rw [hitem] at hdb
  subst hdb
  constructor
  · have hf := TokenTable_First_append_new .access db.rows
      { ID := db.nextID, ExpiredAt := (T.AccessCreateAt.Add T.AccessExpiresIn).Unix,
        Code := "", Access := T.Access, Refresh := "", Data := data } (db.nextID + 1)
      (by simpa [Column.get] using hfresh)
    simp only [Column.get] at hf
    simp [TokenStore.GetByAccess, TokenStore.getBy, haccess, hf, TokenStore.toTokenInfo,
      hrt data hm]
  · refine ⟨_, rfl, rfl, rfl, rfl, ?_, ?_⟩
    · exact getBy_empty js gfault .code _
    · exact getBy_empty js gfault .refresh _

/-- Witness of the amended C5: the access-only example token created in the
empty table. -/
theorem GetByAccess_after_Create_witness :
    TokenStore.GetByAccess exTokenJSON none exAccessToken.Access
        { rows := [{ ID := 1, ExpiredAt := 7200, Code := "", Access := "a1", Refresh := "",
                     Data := exAccessText }],
          nextID := 2 }
      = ((some exAccessToken, none),
         { rows := [{ ID := 1, ExpiredAt := 7200, Code := "", Access := "a1", Refresh := "",
                      Data := exAccessText }],
           nextID := 2 }) :=
  (GetByAccess_after_Create exTokenJSON none none exAccessToken TokenTable.empty
    { rows := [{ ID := 1, ExpiredAt := 7200, Code := "", Access := "a1", Refresh := "",
                 Data := exAccessText }],
      nextID := 2 }
    (by decide) (by decide) (by decide) (by intro data h; cases h; decide)
    (by intro r hr; cases hr)
    (by rw [Create_eq exTokenJSON exAccessToken exAccessText TokenTable.empty rfl]; decide)).1

/-! ## Removal -/

theorem Column_get_clear (col : Column) (r : tokenStoreItem) : col.get (col.clear r) = "" := by
  cases col <;> rfl

theorem Column_clear_ID (col : Column) (r : tokenStoreItem) : (col.clear r).ID = r.ID := by
  cases col <;> rfl

theorem removeBy_none (col : Column) (v : String) (db : TokenTable) :
    TokenStore.removeBy none col v db
      = (none, { rows := db.rows.map (fun r => if col.get r == v then col.clear r else r),
                 nextID := db.nextID }) := by
  simp [TokenStore.removeBy, TokenTable.Update]

theorem removeBy_rows_absent (col : Column) (v : String) (hv : v ≠ "") (db : TokenTable) :
    ∀ r ∈ (TokenStore.removeBy none col v db).2.rows, col.get r ≠ v := by
  rw [removeBy_none]
  intro r hr
  simp only [List.mem_map] at hr
  obtain ⟨r0, _, rfl⟩ := hr
  by_cases h : col.get r0 = v
  · simp only [h, beq_self_eq_true, if_true]
    rw [Column_get_clear]
    exact fun h' => hv h'.symm
  · simp [h]

/-- C6: for every key column, table and value v, removeBy(v) with a working
database followed by getBy(v) returns (nil, nil), and the removal deletes no
row: the table holds the same number of rows, with the same ids in the same
order, as before.  RemoveByCode/GetByCode, RemoveByAccess/GetByAccess and
RemoveByRefresh/GetByRefresh are removeBy/getBy at the three key columns. -/
theorem getBy_after_removeBy (js : JSON Token) (col : Column) (v : String) (db : TokenTable) :
    (TokenStore.removeBy none col v db).1 = none
    ∧ TokenStore.getBy js none col v (TokenStore.removeBy none col v db).2
        = ((none, none), (TokenStore.removeBy none col v db).2)
    ∧ (TokenStore.removeBy none col v db).2.rows.length = db.rows.length
    ∧ (TokenStore.removeBy none col v db).2.rows.map (fun r => r.ID)
        = db.rows.map (fun r => r.ID)
    ∧ TokenStore.RemoveByCode none v db = TokenStore.removeBy none .code v db
    ∧ TokenStore.RemoveByAccess none v db = TokenStore.removeBy none .access v db
    ∧ TokenStore.RemoveByRefresh none v db = TokenStore.removeBy none .refresh v db
    ∧ TokenStore.GetByCode js none v db = TokenStore.getBy js none .code v db
    ∧ TokenStore.GetByAccess js none v db = TokenStore.getBy js none .access v db
    ∧ TokenStore.GetByRefresh js none v db = TokenStore.getBy js none .refresh v db := by
  refine ⟨?_, ?_, ?_, ?_, rfl, rfl, rfl, rfl, rfl, rfl⟩
  · rw [removeBy_none]
  · by_cases hv : v = ""
    · subst hv
      exact getBy_empty js none col _
    · have habs := removeBy_rows_absent col v hv db
      simp [TokenStore.getBy, hv, TokenTable_First_absent col v _ habs]
  · rw [removeBy_none]
    simp
  · rw [removeBy_none]
    simp only [List.map_map]
    apply List.map_congr_left
    intro r _
    by_cases h : col.get r = v <;> simp [h, Column_clear_ID]

/-- Witness of C6: the access value of the only row of a table is removed and
then looked up. -/
theorem getBy_after_removeBy_witness :
    TokenStore.RemoveByAccess none "a1" exAccessTable0
      = (none, { rows := [{ ID := 1, ExpiredAt := 7200, Code := "", Access := "",
                            Refresh := "", Data := exAccessText0 }],
                 nextID := 2 })
    ∧ TokenStore.getBy exTokenJSON none .access "a1"
        (TokenStore.removeBy none .access "a1" exAccessTable0).2
      = ((none, none), (TokenStore.removeBy none .access "a1" exAccessTable0).2) :=
  ⟨by decide, (getBy_after_removeBy exTokenJSON .access "a1" exAccessTable0).2.1⟩

/-- C8: for every key column and every value v that no row holds in that
column, removeBy(v) with a working database returns no error and leaves the
table as it was, so repeating the call gives the same result. -/
theorem removeBy_absent_noop (col : Column) (v : String) (db : TokenTable)
    (habs : ∀ r ∈ db.rows, col.get r ≠ v) :
    TokenStore.removeBy none col v db = (none, db)
    ∧ TokenStore.removeBy none col v (TokenStore.removeBy none col v db).2 = (none, db)
    ∧ TokenStore.RemoveByCode none v db = TokenStore.removeBy none .code v db
    ∧ TokenStore.RemoveByAccess none v db = TokenStore.removeBy none .access v db
    ∧ TokenStore.RemoveByRefresh none v db = TokenStore.removeBy none .refresh v db := by
  have h1 : TokenStore.removeBy none col v db = (none, db) := by
    rw [removeBy_none]
    have hmap : db.rows.map (fun r => if col.get r == v then col.clear r else r) = db.rows := by
      conv_rhs => rw [← List.map_id db.rows]
      apply List.map_congr_left
      intro r hr
      simp [habs r hr]
    rw [hmap]
  refine ⟨h1, ?_, rfl, rfl, rfl⟩
  rw [h1]
  exact h1

/-- Witness of C8: a code that no row holds is removed from a table with one
row. -/
theorem removeBy_absent_noop_witness :
    TokenStore.removeBy none .code "k9" exAccessTable0 = (none, exAccessTable0) :=
  (removeBy_absent_noop .code "k9" exAccessTable0 (by decide)).1

/-! ## Lookups that find nothing, and lookups that fail -/

theorem ClientTable_First_absent (id : String) (db : ClientTable)
    (habs : ∀ r ∈ db, r.ID ≠ id) :
    ClientTable.First none id db = .error .ErrRecordNotFound := by
  unfold ClientTable.First
  have h1 : List.find? (fun r => r.ID == id) db = none := by
    rw [List.find?_eq_none]
    intro r hr
    simpa using habs r hr
  simp [h1]

/-- C7: each lookup returns (nil, nil) on the empty string whatever the
database would answer (any fault, any table), and returns (nil, nil) on a
non-empty value that no row holds in the respective column when the query
runs; in both cases the table is the one before the call. -/
theorem lookup_empty_or_absent (jc : JSON Client) (jt : JSON Token) :
    (∀ (fault : Option GoError) (db : ClientTable),
        ClientStore.GetByID jc fault "" db = ((none, none), db))
    ∧ (∀ (fault : Option GoError) (db : TokenTable),
        TokenStore.GetByCode jt fault "" db = ((none, none), db)
        ∧ TokenStore.GetByAccess jt fault "" db = ((none, none), db)
        ∧ TokenStore.GetByRefresh jt fault "" db = ((none, none), db))
    ∧ (∀ (id : String) (db : ClientTable), id ≠ "" → (∀ r ∈ db, r.ID ≠ id) →
        ClientStore.GetByID jc none id db = ((none, none), db))
    ∧ (∀ (v : String) (db : TokenTable), v ≠ "" → (∀ r ∈ db.rows, r.Code ≠ v) →
        TokenStore.GetByCode jt none v db = ((none, none), db))
    ∧ (∀ (v : String) (db : TokenTable), v ≠ "" → (∀ r ∈ db.rows, r.Access ≠ v) →
        TokenStore.GetByAccess jt none v db = ((none, none), db))
    ∧ (∀ (v : String) (db : TokenTable), v ≠ "" → (∀ r ∈ db.rows, r.Refresh ≠ v) →
        TokenStore.GetByRefresh jt none v db = ((none, none), db)) := by
  refine ⟨?_, ?_, ?_, ?_, ?_, ?_⟩
  · intro fault db
    simp [ClientStore.GetByID]
  · intro fault db
    exact ⟨getBy_empty jt fault .code db, getBy_empty jt fault .access db,
      getBy_empty jt fault .refresh db⟩
  · intro id db hid habs
    simp [ClientStore.GetByID, hid, ClientTable_First_absent id db habs]
  · intro v db hv habs
    simp [TokenStore.GetByCode, TokenStore.getBy, hv,
      TokenTable_First_absent .code v db habs]
  · intro v db hv habs
    simp [TokenStore.GetByAccess, TokenStore.getBy, hv,
      TokenTable_First_absent .access v db habs]
  · intro v db hv habs
    simp [TokenStore.GetByRefresh, TokenStore.getBy, hv,
      TokenTable_First_absent .refresh v db habs]

/-- Witness of C7: an unknown access value looked up in a table with one row,
and the empty string looked up while the database is down. -/
theorem lookup_empty_or_absent_witness :
    TokenStore.GetByAccess exTokenJSON none "zz" exAccessTable0
        = ((none, none), exAccessTable0)
    ∧ ClientStore.GetByID exClientJSON (some (.database "connection refused")) "" []
        = ((none, none), []) :=
  ⟨(lookup_empty_or_absent exClientJSON exTokenJSON).2.2.2.2.1 "zz" exAccessTable0
      (by decide) (by decide),
   (lookup_empty_or_absent exClientJSON exTokenJSON).1 _ _⟩

theorem lookupErrorContract_of_cases {ρ β : Type} (q : Except GoError ρ)
    (decode : ρ → Except GoError β) (res : Option β × Option GoError)
    (hres : res =
      match q with
      | .error err => if err = .ErrRecordNotFound then (none, none) else (none, some err)
      | .ok row =>
        match decode row with
        | .error err => (none, some err)
        | .ok x => (some x, none)) :
    LookupErrorContract q decode res := by
  subst hres
  unfold LookupErrorContract
  cases q with
  | error err =>
    by_cases he : err = .ErrRecordNotFound
    · subst he
      simp
    · simp [he]
  | ok row =>
    cases hd : decode row with
    | error err =>
      simp only [hd]
      refine ⟨?_, ?_, ?_, ?_, ?_⟩
      · constructor
        · intro _
          exact Or.inr ⟨row, err, rfl, hd⟩
        · intro _
          simp
      · intro e he
        cases he
      · intro row1 e hrow he
        cases hrow
        rw [hd] at he
        cases he
        rfl
      · intro _
        trivial
      · intro e he
        cases he
    | ok x =>
      simp only [hd]
      refine ⟨?_, ?_, ?_, ?_, ?_⟩
      · constructor
        · intro h
          exact absurd rfl h
        · rintro (⟨e, he, _⟩ | ⟨row1, e, hrow, he⟩)
          · cases he
          · cases hrow
            rw [hd] at he
            cases he
      · intro e he
        cases he
      · intro row1 e hrow he
        cases hrow
        rw [hd] at he
        cases he
      · intro h
        exact absurd rfl h
      · intro e he
        cases he

theorem GetByID_contract (jc : JSON Client) (fault : Option GoError) (id : String)
    (cdb : ClientTable) (hid : id ≠ "") :
    LookupErrorContract (cdb.First fault id) (fun item => jc.Unmarshal item.Data)
        (ClientStore.GetByID jc fault id cdb).1
    ∧ (ClientStore.GetByID jc fault id cdb).2 = cdb := by
  constructor
  · apply lookupErrorContract_of_cases
    unfold ClientStore.GetByID ClientStore.toClientInfo
    simp only [hid, if_false]
    cases hq : cdb.First fault id with
    | error err => by_cases he : err = .ErrRecordNotFound <;> simp [he]
    | ok item => cases hd : jc.Unmarshal item.Data <;> simp [hd]
  · unfold ClientStore.GetByID
    simp only [hid, if_false]
    cases hq : cdb.First fault id with
    | error err => by_cases he : err = .ErrRecordNotFound <;> simp [he]
    | ok item => simp

theorem getBy_contract (jt : JSON Token) (fault : Option GoError) (col : Column)
    (value : String) (tdb : TokenTable) (hvalue : value ≠ "") :
    LookupErrorContract (tdb.First fault col value) (fun item => jt.Unmarshal item.Data)
        (TokenStore.getBy jt fault col value tdb).1
    ∧ (TokenStore.getBy jt fault col value tdb).2 = tdb := by
  constructor
  · apply lookupErrorContract_of_cases
    unfold TokenStore.getBy TokenStore.toTokenInfo
    simp only [hvalue, if_false]
    cases hq : tdb.First fault col value with
    | error err => by_cases he : err = .ErrRecordNotFound <;> simp [he]
    | ok item => cases hd : jt.Unmarshal item.Data <;> simp [hd]
  · unfold TokenStore.getBy
    simp only [hvalue, if_false]
    cases hq : tdb.First fault col value with
    | error err => by_cases he : err = .ErrRecordNotFound <;> simp [he]
    | ok item => simp

theorem getBy_fault (jt : JSON Token) (e : GoError) (col : Column) (value : String)
    (tdb : TokenTable) (hvalue : value ≠ "") :
    TokenStore.getBy jt (some e) col value tdb
      = (if e = .ErrRecordNotFound then ((none, none), tdb) else ((none, some e), tdb)) := by
  unfold TokenStore.getBy TokenTable.First
  by_cases he : e = .ErrRecordNotFound <;> simp [hvalue, he]

/-- C9: for each of ClientStore.GetByID, TokenStore.GetByCode, GetByAccess and
GetByRefresh called with a non-empty argument, the returned error is non-nil
exactly when the query fails with an error other than record-not-found, which
is then returned as it is, or when the blob of the row found fails to
deserialise, whose error is then returned; an error comes with a nil object;
and record-not-found is the only query error mapped to a nil error.  An error
e reported by the database handle is the error of the query, so each lookup
then returns (nil, e), or (nil, nil) when e is record-not-found; the table is
the one before the call. -/
theorem lookup_error_contract (jc : JSON Client) (jt : JSON Token) (fault : Option GoError)
    (id : String) (cdb : ClientTable) (value : String) (tdb : TokenTable)
    (hid : id ≠ "") (hvalue : value ≠ "") :
    LookupErrorContract (cdb.First fault id) (fun item => jc.Unmarshal item.Data)
        (ClientStore.GetByID jc fault id cdb).1
    ∧ LookupErrorContract (tdb.First fault .code value) (fun item => jt.Unmarshal item.Data)
        (TokenStore.GetByCode jt fault value tdb).1
    ∧ LookupErrorContract (tdb.First fault .access value) (fun item => jt.Unmarshal item.Data)
        (TokenStore.GetByAccess jt fault value tdb).1
    ∧ LookupErrorContract (tdb.First fault .refresh value)
        (fun item => jt.Unmarshal item.Data)
        (TokenStore.GetByRefresh jt fault value tdb).1
    ∧ (∀ e, fault = some e →
        cdb.First fault id = .error e ∧ ∀ col, tdb.First fault col value = .error e)
    ∧ (∀ e, fault = some e → e ≠ .ErrRecordNotFound →
        ClientStore.GetByID jc fault id cdb = ((none, some e), cdb)
        ∧ TokenStore.GetByCode jt fault value tdb = ((none, some e), tdb)
        ∧ TokenStore.GetByAccess jt fault value tdb = ((none, some e), tdb)
        ∧ TokenStore.GetByRefresh jt fault value tdb = ((none, some e), tdb))
    ∧ (fault = some .ErrRecordNotFound →
        ClientStore.GetByID jc fault id cdb = ((none, none), cdb)
        ∧ TokenStore.GetByCode jt fault value tdb = ((none, none), tdb)
        ∧ TokenStore.GetByAccess jt fault value tdb = ((none, none), tdb)
        ∧ TokenStore.GetByRefresh jt fault value tdb = ((none, none), tdb))
    ∧ (ClientStore.GetByID jc fault id cdb).2 = cdb
    ∧ (TokenStore.GetByCode jt fault value tdb).2 = tdb
    ∧ (TokenStore.GetByAccess jt fault value tdb).2 = tdb
    ∧ (TokenStore.GetByRefresh jt fault value tdb).2 = tdb := by
  refine ⟨(GetByID_contract jc fault id cdb hid).1, ?_, ?_, ?_, ?_, ?_, ?_,
    (GetByID_contract jc fault id cdb hid).2, ?_, ?_, ?_⟩
  · unfold TokenStore.GetByCode
    exact (getBy_contract jt fault .code value tdb hvalue).1
  · unfold TokenStore.GetByAccess
    exact (getBy_contract jt fault .access value tdb hvalue).1
  · unfold TokenStore.GetByRefresh
    exact (getBy_contract jt fault .refresh value tdb hvalue).1
  · rintro e rfl
    refine ⟨by simp [ClientTable.First], fun col => by simp [TokenTable.First]⟩
  · rintro e rfl he
    refine ⟨?_, ?_, ?_, ?_⟩
    · simp [ClientStore.GetByID, ClientTable.First, hid, he]
    · unfold TokenStore.GetByCode
      rw [getBy_fault jt e .code value tdb hvalue, if_neg he]
    · unfold TokenStore.GetByAccess
      rw [getBy_fault jt e .access value tdb hvalue, if_neg he]
    · unfold TokenStore.GetByRefresh
      rw [getBy_fault jt e .refresh value tdb hvalue, if_neg he]
  · rintro rfl
    refine ⟨?_, ?_, ?_, ?_⟩
    · simp [ClientStore.GetByID, ClientTable.First, hid]
    · unfold TokenStore.GetByCode
      rw [getBy_fault jt _ .code value tdb hvalue, if_pos rfl]
    · unfold TokenStore.GetByAccess
      rw [getBy_fault jt _ .access value tdb hvalue, if_pos rfl]
    · unfold TokenStore.GetByRefresh
      rw [getBy_fault jt _ .refresh value tdb hvalue, if_pos rfl]
  · unfold TokenStore.GetByCode
    exact (getBy_contract jt fault .code value tdb hvalue).2
  · unfold TokenStore.GetByAccess
    exact (getBy_contract jt fault .access value tdb hvalue).2
  · unfold TokenStore.GetByRefresh
    exact (getBy_contract jt fault .refresh value tdb hvalue).2

/-- Witness of C9: with the database down, GetByID and GetByCode return the
database's error; GetByAccess on a row whose blob is not a token returns the
deserialiser's error; GetByRefresh leaves the table as it was. -/
theorem lookup_error_contract_witness :
    ClientStore.GetByID exClientJSON (some (.database "connection refused")) "c1" []
        = ((none, some (.database "connection refused")), [])
    ∧ TokenStore.GetByCode exTokenJSON (some (.database "connection refused")) "k1"
        TokenTable.empty
        = ((none, some (.database "connection refused")), TokenTable.empty)
    ∧ (TokenStore.GetByAccess exTokenJSON none "a1"
        { rows := [{ ID := 1, ExpiredAt := 0, Code := "", Access := "a1", Refresh := "",
                     Data := "not json" }],
          nextID := 2 }).1
        = (none, some (.json "invalid character"))
    ∧ (TokenStore.GetByRefresh exTokenJSON none "r2" exBothTable0).2 = exBothTable0 := by
  obtain ⟨_, _, _, _, _, h6, _⟩ :=
    lookup_error_contract exClientJSON exTokenJSON (some (.database "connection refused"))
      "c1" [] "k1" TokenTable.empty (by decide) (by decide)
  obtain ⟨_, _, h3, _⟩ :=
    lookup_error_contract exClientJSON exTokenJSON none "c1" [] "a1"
      { rows := [{ ID := 1, ExpiredAt := 0, Code := "", Access := "a1", Refresh := "",
                   Data := "not json" }],
        nextID := 2 } (by decide) (by decide)
  have h4 := (lookup_error_contract exClientJSON exTokenJSON none "c1" [] "r2"
      exBothTable0 (by decide) (by decide)).2.2.2.2.2.2.2.2.2.2
  exact ⟨(h6 _ rfl (by decide)).1, (h6 _ rfl (by decide)).2.1,
    h3.2.2.1 { ID := 1, ExpiredAt := 0, Code := "", Access := "a1", Refresh := "",
               Data := "not json" } (.json "invalid character") (by decide) (by decide),
    h4⟩

/-! ## The frame of RemoveByAccess -/

theorem leastID_map (f : tokenStoreItem → tokenStoreItem) (hf : ∀ r, (f r).ID = r.ID)
    (l : List tokenStoreItem) : leastID (l.map f) = (leastID l).map f := by
  induction l with
  | nil => rfl
  | cons r rs ih =>
    simp only [List.map_cons, leastID, ih]
    cases h : leastID rs with
    | none => simp
    | some m =>
      simp only [Option.map_some', hf]
      by_cases hlt : m.ID < r.ID <;> simp [hlt]

theorem RemoveByAccess_none (v : String) (db : TokenTable) :
    TokenStore.RemoveByAccess none v db
      = (none, { rows := db.rows.map
                   (fun r => if r.Access = v then { r with Access := "" } else r),
                 nextID := db.nextID }) := by
  unfold TokenStore.RemoveByAccess
  rw [removeBy_none]
  simp only [Column.get, Column.clear, beq_iff_eq]

theorem RemoveByRefresh_none (v : String) (db : TokenTable) :
    TokenStore.RemoveByRefresh none v db
      = (none, { rows := db.rows.map
                   (fun r => if r.Refresh = v then { r with Refresh := "" } else r),
                 nextID := db.nextID }) := by
  unfold TokenStore.RemoveByRefresh
  rw [removeBy_none]
  simp only [Column.get, Column.clear, beq_iff_eq]

theorem GetByRefresh_after_RemoveByAccess (js : JSON Token) (fault : Option GoError)
    (v w : String) (db : TokenTable) :
    (TokenStore.GetByRefresh js fault w (TokenStore.RemoveByAccess none v db).2).1
      = (TokenStore.GetByRefresh js fault w db).1 := by
  rw [RemoveByAccess_none]
  unfold TokenStore.GetByRefresh TokenStore.getBy
  by_cases hw : w = ""
  · simp [hw]
  · simp only [hw, if_false]
    cases fault with
    | some e =>
      simp only [TokenTable.First]
      by_cases he : e = .ErrRecordNotFound <;> simp [he]
    | none =>
      set f : tokenStoreItem → tokenStoreItem :=
        fun r => if r.Access = v then { r with Access := "" } else r with hfdef
      have hfID : ∀ r, (f r).ID = r.ID := by
        intro r
        by_cases h : r.Access = v <;> simp [hfdef, h]
      have hfRefresh : ∀ r, (f r).Refresh = r.Refresh := by
        intro r
        by_cases h : r.Access = v <;> simp [hfdef, h]
      have hfData : ∀ r, (f r).Data = r.Data := by
        intro r
        by_cases h : r.Access = v <;> simp [hfdef, h]
      have hfilter : (db.rows.map f).filter (fun r => Column.refresh.get r == w)
          = (db.rows.filter (fun r => Column.refresh.get r == w)).map f := by
        rw [List.filter_map]
        congr 1
        apply List.filter_congr
        intro r _
        simp [Column.get, hfRefresh]
      simp only [TokenTable.First, hfilter, leastID_map f hfID]
      cases hl : leastID (db.rows.filter (fun r => Column.refresh.get r == w)) with
      | none => simp
      | some m => simp [hfData]

/-- C10 fails in its consequence: when an earlier row holds the same refresh
value, GetByRefresh after Create and RemoveByAccess returns the earlier token,
not the one stored. -/
theorem GetByRefresh_after_RemoveByAccess_counterexample :
    TokenStore.Create exTokenJSON none exBothToken0 TokenTable.empty = (none, exBothTable0)
    ∧ TokenStore.Create exTokenJSON none exBothToken exBothTable0
        = (none, { rows := exBothTable0.rows ++
                     [{ ID := 2, ExpiredAt := 86400, Code := "", Access := "a2",
                        Refresh := "r2", Data := exBothText }],
                   nextID := 3 })
    ∧ (TokenStore.GetByRefresh exTokenJSON none exBothToken.Refresh
        (TokenStore.RemoveByAccess none exBothToken.Access
          { rows := exBothTable0.rows ++
              [{ ID := 2, ExpiredAt := 86400, Code := "", Access := "a2",
                 Refresh := "r2", Data := exBothText }],
            nextID := 3 }).2).1 = (some exBothToken0, none)
    ∧ exBothToken0 ≠ exBothToken := by
  refine ⟨?_, ?_, ?_, ?_⟩
  · rw [Create_eq exTokenJSON exBothToken0 exBothText0 TokenTable.empty rfl]
    decide
  · rw [Create_eq exTokenJSON exBothToken exBothText exBothTable0 rfl]
    decide
  · decide
  · decide

/-- C10 as amended: RemoveByAccess(v) changes only the access column of the
rows whose access equals v, and no refresh lookup changes its result.  For a
token T with empty code and non-empty refresh (whatever its access), created
in a table where no row already holds T's refresh value,
GetByRefresh(T.Refresh) after RemoveByAccess(T.Access) returns T; the row then
has an empty access and T's refresh, so the sweep takes it by expiry only, and
after RemoveByRefresh(T.Refresh) all its key columns are empty and the sweep
takes it at any instant. -/
theorem RemoveByAccess_keeps_refresh (js : JSON Token) (fault : Option GoError)
    (T : Token) (db db' : TokenTable)
    (hcode : T.Code = "") (hrefresh : T.Refresh ≠ "")
    (hrt : ∀ data, js.Marshal T = .ok data → js.Unmarshal data = .ok T)
    (hfresh : ∀ r ∈ db.rows, r.Refresh ≠ T.Refresh)
    (hc : TokenStore.Create js fault T db = (none, db')) :
    (∀ (v : String) (t : TokenTable),
        TokenStore.RemoveByAccess none v t
          = (none, { rows := t.rows.map
                       (fun r => if r.Access = v then { r with Access := "" } else r),
                     nextID := t.nextID }))
    ∧ (∀ (g : Option GoError) (v w : String) (t : TokenTable),
        (TokenStore.GetByRefresh js g w (TokenStore.RemoveByAccess none v t).2).1
          = (TokenStore.GetByRefresh js g w t).1)
    ∧ (TokenStore.GetByRefresh js none T.Refresh
        (TokenStore.RemoveByAccess none T.Access db').2).1 = (some T, none)
    ∧ (∃ (pre : List tokenStoreItem) (row : tokenStoreItem),
        (TokenStore.RemoveByAccess none T.Access db').2.rows = pre ++ [row]
        ∧ row.ID = db.nextID ∧ row.Code = "" ∧ row.Access = "" ∧ row.Refresh = T.Refresh
        ∧ (∀ now, now < row.ExpiredAt → sweepCond now row = false))
    ∧ (∃ (pre : List tokenStoreItem) (row : tokenStoreItem),
        (TokenStore.RemoveByRefresh none T.Refresh
          (TokenStore.RemoveByAccess none T.Access db').2).2.rows = pre ++ [row]
        ∧ row.ID = db.nextID ∧ row.Code = "" ∧ row.Access = "" ∧ row.Refresh = ""
        ∧ (∀ now, sweepCond now row = true)) := by
  obtain ⟨data, hm, hdb⟩ := TokenStore_Create_ok js fault T db db' hc
  have hitem : TokenStore.createItem T data
      = { ID := 0, ExpiredAt := (T.RefreshCreateAt.Add T.RefreshExpiresIn).Unix, Code := "",
          Access := T.Access, Refresh := T.Refresh, Data := data } := by
    simp [TokenStore.createItem, hcode, hrefresh]
  rw [hitem] at hdb
  subst hdb
  refine ⟨RemoveByAccess_none, fun g v w t => GetByRefresh_after_RemoveByAccess js g v w t,
    ?_, ?_, ?_⟩
  · rw [GetByRefresh_after_RemoveByAccess]
    have hf := TokenTable_First_append_new .refresh db.rows
      { ID := db.nextID, ExpiredAt := (T.RefreshCreateAt.Add T.RefreshExpiresIn).Unix,
        Code := "", Access := T.Access, Refresh := T.Refresh, Data := data } (db.nextID + 1)
      (by simpa [Column.get] using hfresh)
    simp only [Column.get] at hf
    simp [TokenStore.GetByRefresh, TokenStore.getBy, hrefresh, hf, TokenStore.toTokenInfo,
      hrt data hm]
  · rw [RemoveByAccess_none]
    refine ⟨db.rows.map (fun r => if r.Access = T.Access then { r with Access := "" } else r),
               { ID := db.nextID, ExpiredAt := (T.RefreshCreateAt.Add T.RefreshExpiresIn).Unix,
                 Code := "", Access := "", Refresh := T.Refresh, Data := data }, ?_,
      rfl, rfl, rfl, rfl, ?_⟩
    · simp only [List.map_append, List.map_cons, List.map_nil, if_true]
    · intro now hnow
      rw [sweepCond_false_iff]
      exact ⟨hnow, Or.inr (Or.inr hrefresh)⟩
  · rw [RemoveByAccess_none, RemoveByRefresh_none]
    refine ⟨(db.rows.map
                (fun r => if r.Access = T.Access then { r with Access := "" } else r)).map
                (fun r => if r.Refresh = T.Refresh then { r with Refresh := "" } else r),
               { ID := db.nextID, ExpiredAt := (T.RefreshCreateAt.Add T.RefreshExpiresIn).Unix,
                 Code := "", Access := "", Refresh := "", Data := data }, ?_,
      rfl, rfl, rfl, rfl, ?_⟩
    · simp only [List.map_append, List.map_cons, List.map_nil, if_true]
    · intro now
      rw [sweepCond_iff]
      exact Or.inr ⟨rfl, rfl, rfl⟩

/-- Witness of the amended C10: the example token with access and refresh,
created in the empty table; its access is removed and its refresh looked up. -/
theorem RemoveByAccess_keeps_refresh_witness :
    (TokenStore.GetByRefresh exTokenJSON none exBothToken.Refresh
      (TokenStore.RemoveByAccess none exBothToken.Access
        { rows := [{ ID := 1, ExpiredAt := 86400, Code := "", Access := "a2",
                     Refresh := "r2", Data := exBothText }],
          nextID := 2 }).2).1 = (some exBothToken, none) :=
  (RemoveByAccess_keeps_refresh exTokenJSON none exBothToken TokenTable.empty
    { rows := [{ ID := 1, ExpiredAt := 86400, Code := "", Access := "a2",
                 Refresh := "r2", Data := exBothText }],
      nextID := 2 }
    (by decide) (by decide) (by intro data h; cases h; decide)
    (by intro r hr; cases hr)
    (by rw [Create_eq exTokenJSON exBothToken exBothText TokenTable.empty rfl]; decide)).2.2.1

end oauth2gorm
